import Mathlib

/-!
Verification of `go-data-buffer` (package `buffer`): a disk-backed staging
area consisting of a `Buffer` (a named collection of buckets rooted at a
directory) and `Bucket` (a single file-backed byte sink with an
open/close/destroy lifecycle and a `bufio.Writer` in front of the file).

The embedding models the strict lifecycle variant (`bucket.go`, with the
`open` flag) together with the eager `Buffer` variant whose `Get` opens a
freshly created bucket before inserting it into the map.

Modelling decisions, each matching the Go source:
* the injected `afero.Fs` is threaded as an explicit `Fs` value (a set of
  existing file paths plus a set of existing directories); `Create` and
  `MkdirAll` always succeed, as they do on the in-memory filesystem the
  tests inject;
* an open file handle (`afero.File`) keeps its own contents and cursor and
  survives removal of its path, like a POSIX unlinked file;
* `bufio.Writer` is modelled by its buffered byte list plus the algorithm
  of `bufio.Writer.Write`: data that fits is buffered, a full buffer is
  flushed to the file, and a large payload hitting an empty buffer is
  written to the file directly;
* Go `uint` / `uint64` counters are naturals reduced modulo `2 ^ 64`;
* a fallible operation returns `Res`: `ok` (nil error), `err` (a returned
  Go `error`), or `panik` (a runtime fault such as a nil-pointer
  dereference, e.g. `b.file.Name()` when `b.file` is still nil).
-/

namespace GoDataBuffer

/-- Modulus of Go `uint` and `uint64` on a 64-bit platform. -/
def u64 : Nat := 2 ^ 64

/-- `bufio.defaultBufSize`, the capacity of the writer created by
`bufio.NewWriter(file)`. -/
def bufCap : Nat := 4096

/-- Outcome of a Go call: a normal result, a returned `error` value, or a
runtime fault (panic / nil-pointer dereference). -/
inductive Res (α : Type) where
  | ok : α → Res α
  | err : String → Res α
  | panik : Res α
deriving DecidableEq

/-- True exactly on a normal (nil-error) result. -/
def Res.isOk {α : Type} : Res α → Bool
  | Res.ok _ => true
  | _ => false

/-- An open file handle: its byte contents and its read/write cursor. The
handle keeps both even after the path is removed from the filesystem. -/
structure FileH where
  content : List Nat
  pos : Nat
deriving DecidableEq

/-- `file.Write(data)` at the current cursor: overwrites in place, extends
at the end, and advances the cursor (afero in-memory file semantics). -/
def fileWrite (f : FileH) (data : List Nat) : FileH :=
  { content := f.content.take f.pos ++ data ++ f.content.drop (f.pos + data.length)
    pos := f.pos + data.length }

/-- The injected filesystem: which file paths and which directories exist. -/
structure Fs where
  files : List String
  dirs : List String
deriving DecidableEq

/-- Insert a path if absent (used by `Fs.Create` and `MkdirAll`). -/
def insertPath (l : List String) (p : String) : List String :=
  if p ∈ l then l else l ++ [p]

/-- The algorithm of `bufio.Writer.Write` over the pair (file, buffered
bytes): while the data does not fit in the remaining buffer space, either
write it directly to the file (empty buffer) or top the buffer up and
flush it; the remainder is buffered. -/
def bufioWrite (cap : Nat) (f : FileH) (buf data : List Nat) :
    FileH × List Nat :=
  if data.length ≤ cap - buf.length then
    (f, buf ++ data)
  else if _h : buf.length = 0 then
    (fileWrite f data, [])
  else
    bufioWrite cap (fileWrite f (buf ++ data.take (cap - buf.length))) []
      (data.drop (cap - buf.length))
termination_by data.length + buf.length
decreasing_by
  simp only [List.length_drop, List.length_nil]
  omega

/-- The `Bucket` struct of `bucket.go`. The Go field `open` is named
`isOpen` here (`open` is a Lean keyword); `writer` holds the buffered
bytes of the `bufio.Writer`; `file` and `writer` are `none` until
`create` has run, mirroring the nil Go fields. -/
structure Bucket where
  path : String
  file : Option FileH
  isOpen : Bool
  writer : Option (List Nat)
  writes : Nat
  bytes : Nat
deriving DecidableEq

/-- `NewBucket`: path recorded, everything else zero / nil. -/
def NewBucket (path : String) : Bucket :=
  { path := path, file := none, isOpen := false, writer := none
    writes := 0, bytes := 0 }

/-- `Bucket.create`: `fs.Create(path)` truncates or creates the backing
file and wraps it in a fresh `bufio.Writer`. -/
def Bucket.create (fs : Fs) (b : Bucket) : Fs × Bucket :=
  ({ fs with files := insertPath fs.files b.path },
   { b with file := some { content := [], pos := 0 }, writer := some [] })

/-- `Bucket.Open`: rejected if already open, otherwise creates the backing
file and buffered writer and sets the open flag. -/
def Bucket.Open (fs : Fs) (b : Bucket) : Res (Fs × Bucket) :=
  if b.isOpen then Res.err "bucket already open"
  else
    let r := b.create fs
    Res.ok (r.1, { r.2 with isOpen := true })

/-- Internal `Bucket.flush`: `b.writer.Flush()` empties the buffered bytes
into the file; a nil writer (bucket never created) faults. -/
def Bucket.flushBuf (b : Bucket) : Res Bucket :=
  match b.writer, b.file with
  | some buf, some f =>
      Res.ok { b with file := some (fileWrite f buf), writer := some [] }
  | _, _ => Res.panik

/-- `Bucket.Close`: flush, clear the open flag, seek the file back to
offset 0 so reads start at the beginning. -/
def Bucket.Close (b : Bucket) : Res Bucket :=
  match b.flushBuf with
  | Res.ok b1 =>
      match b1.file with
      | some f => Res.ok { b1 with isOpen := false, file := some { f with pos := 0 } }
      | none => Res.panik
  | Res.err e => Res.err e
  | Res.panik => Res.panik

/-- `Bucket.Destroy`: `fs.Remove(b.file.Name())` then zero both counters.
`b.file.Name()` dereferences the file handle, so a never-created bucket
faults; a missing path makes `Remove` return an error. -/
def Bucket.Destroy (fs : Fs) (b : Bucket) : Res (Fs × Bucket) :=
  match b.file with
  | none => Res.panik
  | some _ =>
      if b.path ∈ fs.files then
        Res.ok ({ fs with files := fs.files.erase b.path },
                { b with writes := 0, bytes := 0 })
      else Res.err "remove: file does not exist"

/-- `Bucket.Write`: rejected while not open; otherwise the payload goes
through the buffered writer and both counters advance (uint arithmetic). -/
def Bucket.Write (fs : Fs) (b : Bucket) (data : List Nat) :
    Res (Fs × Bucket) :=
  if b.isOpen = false then
    Res.err "bucket not accepting writes, make sure to open it first"
  else
    match b.writer, b.file with
    | some buf, some f =>
        let r := bufioWrite bufCap f buf data
        Res.ok (fs, { b with file := some r.1, writer := some r.2
                             writes := (b.writes + 1) % u64
                             bytes := (b.bytes + data.length % u64) % u64 })
    | _, _ => Res.panik

/-- `Bucket.Writes` accessor. -/
def Bucket.Writes (b : Bucket) : Nat := b.writes

/-- `Bucket.Bytes` accessor. -/
def Bucket.Bytes (b : Bucket) : Nat := b.bytes

/-- Reading the bucket to exhaustion: the sequential `Read` loop
(`io.ReadAll`) folded into one step. Rejected while the bucket is open;
otherwise returns everything from the current cursor to the end. -/
def Bucket.ReadAll (b : Bucket) : Res (List Nat) :=
  if b.isOpen then
    Res.err "bucket accepting writes, make sure to close before reading"
  else
    match b.file with
    | some f => Res.ok (f.content.drop f.pos)
    | none => Res.panik

/-- A sequence of `Bucket.Write` calls, stopping at the first failure. -/
def Bucket.writeAll (fs : Fs) (b : Bucket) :
    List (List Nat) → Res (Fs × Bucket)
  | [] => Res.ok (fs, b)
  | d :: ds =>
      match Bucket.Write fs b d with
      | Res.ok r => Bucket.writeAll r.1 r.2 ds
      | Res.err e => Res.err e
      | Res.panik => Res.panik

/-- The round-trip pipeline of the spec: open a fresh bucket at `path`,
write the payloads in order, close, then read to exhaustion. -/
def roundTrip (fs : Fs) (path : String) (ds : List (List Nat)) :
    Res (List Nat) :=
  match Bucket.Open fs (NewBucket path) with
  | Res.ok r1 =>
      match Bucket.writeAll r1.1 r1.2 ds with
      | Res.ok r2 =>
          match r2.2.Close with
          | Res.ok b3 => b3.ReadAll
          | Res.err e => Res.err e
          | Res.panik => Res.panik
      | Res.err e => Res.err e
      | Res.panik => Res.panik
  | Res.err e => Res.err e
  | Res.panik => Res.panik

/-- `filepath.Join(root, name)` for the simple relative names the buffer
uses (no cleaning is modelled). -/
def joinPath (root name : String) : String := root ++ "/" ++ name

/-- Lookup in the bucket map (`b.buckets[name]`). -/
def mapLookup : List (String × Nat) → String → Option Nat
  | [], _ => none
  | e :: rest, n => if e.1 = n then some e.2 else mapLookup rest n

/-- The `Buffer` struct (eager variant). Go holds `*Bucket` pointers in a
map; here `heap` is the list of all `Bucket` instances ever allocated, in
allocation order, and the map `buckets` sends a name to the heap index of
its instance — index equality is pointer equality. -/
structure BufferSt where
  fs : Fs
  root : String
  buckets : List (String × Nat)
  heap : List Bucket
deriving DecidableEq

/-- `NewBuffer`: empty map, no allocations yet. -/
def NewBufferSt (root : String) (fs : Fs) : BufferSt :=
  { fs := fs, root := root, buckets := [], heap := [] }

/-- `Buffer.Open`: `fs.MkdirAll(root, 0755)`, which the in-memory
filesystem always satisfies. -/
def BufferSt.Open (st : BufferSt) : BufferSt :=
  { st with fs := { st.fs with dirs := insertPath st.fs.dirs st.root } }

/-- `Buffer.Get` (eager variant): return the tracked bucket if present;
otherwise allocate a `NewBucket` at `filepath.Join(root, name)`, `Open`
it, and only then insert it into the map. Returns the heap index of the
bucket (its pointer). -/
def BufferSt.Get (st : BufferSt) (name : String) : Res (BufferSt × Nat) :=
  match mapLookup st.buckets name with
  | some idx => Res.ok (st, idx)
  | none =>
      match Bucket.Open st.fs (NewBucket (joinPath st.root name)) with
      | Res.ok r =>
          Res.ok ({ st with fs := r.1, heap := st.heap ++ [r.2]
                            buckets := st.buckets ++ [(name, st.heap.length)] },
                  st.heap.length)
      | Res.err e => Res.err e
      | Res.panik => Res.panik

/-- The loop body of `Buffer.Close`: close each tracked bucket in turn,
returning the first error encountered. -/
def closeLoop (heap : List Bucket) : List (String × Nat) → Res (List Bucket)
  | [] => Res.ok heap
  | e :: rest =>
      match heap[e.2]? with
      | none => Res.panik
      | some b =>
          match b.Close with
          | Res.ok b2 => closeLoop (heap.set e.2 b2) rest
          | Res.err s => Res.err s
          | Res.panik => Res.panik

/-- `Buffer.Close`: close every tracked bucket, stopping at the first
error. -/
def BufferSt.Close (st : BufferSt) : Res BufferSt :=
  match closeLoop st.heap st.buckets with
  | Res.ok heap2 => Res.ok { st with heap := heap2 }
  | Res.err e => Res.err e
  | Res.panik => Res.panik

/-- The loop body of `Buffer.Reset`: destroy each tracked bucket in turn,
returning the first error encountered. -/
def resetLoop (fs : Fs) (heap : List Bucket) :
    List (String × Nat) → Res (Fs × List Bucket)
  | [] => Res.ok (fs, heap)
  | e :: rest =>
      match heap[e.2]? with
      | none => Res.panik
      | some b =>
          match Bucket.Destroy fs b with
          | Res.ok r => resetLoop r.1 (heap.set e.2 r.2) rest
          | Res.err s => Res.err s
          | Res.panik => Res.panik

/-- `Buffer.Reset`: destroy every tracked bucket, then replace the map by
a fresh empty one. -/
def BufferSt.Reset (st : BufferSt) : Res BufferSt :=
  match resetLoop st.fs st.heap st.buckets with
  | Res.ok r => Res.ok { st with fs := r.1, heap := r.2, buckets := [] }
  | Res.err e => Res.err e
  | Res.panik => Res.panik

/-- `Buffer.Buckets`: the list of tracked bucket names. -/
def BufferSt.Buckets (st : BufferSt) : List String :=
  st.buckets.map Prod.fst

/-- `Buffer.Size`: the number of tracked buckets. -/
def BufferSt.Size (st : BufferSt) : Nat := st.buckets.length

/-- Placeholder bucket used only to state list-indexing defaults; every
reachable map entry points inside the heap. -/
def dfltBucket : Bucket := NewBucket ""

/-- The tracked bucket instances, in map order. -/
def BufferSt.tracked (st : BufferSt) : List Bucket :=
  st.buckets.map (fun e => st.heap.getD e.2 dfltBucket)

/-- `Buffer.Writes`: fold `count += bucket.Writes()` (uint addition) over
the tracked buckets. -/
def BufferSt.Writes (st : BufferSt) : Nat :=
  st.tracked.foldl (fun acc b => (acc + b.Writes) % u64) 0

/-- `Buffer.Bytes`: fold `count += bucket.Bytes()` (uint64 addition) over
the tracked buckets. -/
def BufferSt.Bytes (st : BufferSt) : Nat :=
  st.tracked.foldl (fun acc b => (acc + b.Bytes) % u64) 0

/-! ### Writer invariants -/

/-- The invariant every created bucket keeps while writing: file and
writer are present and the file cursor sits at the end of the file. -/
def Bucket.good (b : Bucket) : Prop :=
  ∃ f buf, b.file = some f ∧ b.writer = some buf ∧ f.pos = f.content.length

/-- The bytes logically written to a bucket: file contents followed by the
bytes still sitting in the `bufio.Writer`. -/
def Bucket.logical (b : Bucket) : List Nat :=
  match b.file, b.writer with
  | some f, some buf => f.content ++ buf
  | _, _ => []

/-! ### Concrete demo states used by the witnesses -/

/-- The bucket state produced by `Open` on a fresh `NewBucket path`. -/
def openedFresh (path : String) : Bucket :=
  { path := path, file := some { content := [], pos := 0 }, isOpen := true
    writer := some [], writes := 0, bytes := 0 }

/-- Demo filesystem with no files or directories. -/
def fsDemo : Fs := { files := [], dirs := [] }

/-- The bucket produced by closing `openedFresh "p"` with nothing
written. -/
def closedDemo : Bucket :=
  { path := "p", file := some { content := [], pos := 0 }, isOpen := false
    writer := some [], writes := 0, bytes := 0 }

/-- Demo filesystem containing just the backing file of `closedDemo`. -/
def fsP : Fs := { files := ["p"], dirs := [] }

/-- Demo buffer tracking one open bucket: the state reached from a fresh
buffer rooted at "r" by `Get "a"`. -/
def stDemo1 : BufferSt :=
  { fs := { files := ["r/a"], dirs := [] }, root := "r"
    buckets := [("a", 0)], heap := [openedFresh "r/a"] }

/-- Demo buffer reached by `Open` (root dir created) then `Get "a"`. -/
def stDemoR : BufferSt :=
  { fs := { files := ["r/a"], dirs := ["r"] }, root := "r"
    buckets := [("a", 0)], heap := [openedFresh "r/a"] }

/-- The state `Reset` leaves `stDemoR` in. -/
def stDemoR2 : BufferSt :=
  { fs := { files := [], dirs := ["r"] }, root := "r"
    buckets := [], heap := [openedFresh "r/a"] }

/-- The bucket of `stDemo1` after `Buffer.Close` sealed it. -/
def closedRA : Bucket :=
  { path := "r/a", file := some { content := [], pos := 0 }, isOpen := false
    writer := some [], writes := 0, bytes := 0 }

/-- The state `Buffer.Close` leaves `stDemo1` in. -/
def stDemo2 : BufferSt :=
  { fs := { files := ["r/a"], dirs := [] }, root := "r"
    buckets := [("a", 0)], heap := [closedRA] }

theorem fileWrite_append (f : FileH) (d : List Nat)
    (h : f.pos = f.content.length) :
    fileWrite f d =
      { content := f.content ++ d, pos := f.content.length + d.length } := by
  simp [fileWrite, h, List.drop_eq_nil_of_le]

theorem bufioWrite_spec (n cap : Nat) :
    ∀ (f : FileH) (buf data : List Nat),
      data.length + buf.length ≤ n → f.pos = f.content.length →
      (bufioWrite cap f buf data).1.content ++ (bufioWrite cap f buf data).2 =
          f.content ++ buf ++ data ∧
        (bufioWrite cap f buf data).1.pos =
          (bufioWrite cap f buf data).1.content.length := by
  induction n with
  | zero =>
      intro f buf data hn h
      have hd : data = [] := by
        cases data with
        | nil => rfl
        | cons x xs => simp at hn
      have hb : buf = [] := by
        cases buf with
        | nil => rfl
        | cons x xs => simp at hn
      subst hd; subst hb
      rw [bufioWrite]
      simp [h]
  | succ m ih =>
      intro f buf data hn h
      rw [bufioWrite]
      split_ifs with h1 h2
      · constructor
        · simp [List.append_assoc]
        · exact h
      · have hb : buf = [] := List.eq_nil_of_length_eq_zero h2
        subst hb
        rw [fileWrite_append f data h]
        simp
      · have hlt : (data.drop (cap - buf.length)).length + ([] : List Nat).length ≤ m := by
          simp only [List.length_drop, List.length_nil, Nat.add_zero]
          omega
        have hpos : (fileWrite f (buf ++ data.take (cap - buf.length))).pos =
            (fileWrite f (buf ++ data.take (cap - buf.length))).content.length := by
          rw [fileWrite_append _ _ h]
          simp
        obtain ⟨hc, hp⟩ := ih (fileWrite f (buf ++ data.take (cap - buf.length))) []
          (data.drop (cap - buf.length)) hlt hpos
        refine ⟨?_, hp⟩
        rw [hc, fileWrite_append _ _ h]
        simp [List.append_assoc]

/-- What one successful `Bucket.Write` does to an open, well-formed
bucket. -/
theorem write_step (fs : Fs) (b : Bucket) (d : List Nat)
    (ho : b.isOpen = true) (hg : b.good) :
    ∃ b2, Bucket.Write fs b d = Res.ok (fs, b2) ∧ b2.isOpen = true ∧
      b2.good ∧ b2.logical = b.logical ++ d ∧ b2.path = b.path ∧
      b2.writes = (b.writes + 1) % u64 ∧
      b2.bytes = (b.bytes + d.length % u64) % u64 := by
  obtain ⟨f, buf, hf, hb, hpos⟩ := hg
  have hspec := bufioWrite_spec (d.length + buf.length) bufCap f buf d le_rfl hpos
  refine ⟨{ b with file := some (bufioWrite bufCap f buf d).1
                   writer := some (bufioWrite bufCap f buf d).2
                   writes := (b.writes + 1) % u64
                   bytes := (b.bytes + d.length % u64) % u64 },
    ?_, by simp [ho], ?_, ?_, rfl, rfl, rfl⟩
  · simp [Bucket.Write, ho, hf, hb]
  · exact ⟨(bufioWrite bufCap f buf d).1, (bufioWrite bufCap f buf d).2,
      rfl, rfl, hspec.2⟩
  · simp [Bucket.logical, hf, hb, hspec.1, List.append_assoc]

/-- What a successful run of `Bucket.writeAll` does to an open,
well-formed bucket: all payloads land, the counters advance in uint
arithmetic. -/
theorem writeAll_spec (ds : List (List Nat)) :
    ∀ (fs : Fs) (b : Bucket), b.isOpen = true → b.good →
      b.writes < u64 → b.bytes < u64 →
    ∃ b2, Bucket.writeAll fs b ds = Res.ok (fs, b2) ∧ b2.isOpen = true ∧
      b2.good ∧ b2.logical = b.logical ++ ds.flatten ∧ b2.path = b.path ∧
      b2.writes = (b.writes + ds.length) % u64 ∧
      b2.bytes = (b.bytes + (ds.map List.length).sum) % u64 := by
  induction ds with
  | nil =>
      intro fs b ho hg hw hy
      refine ⟨b, rfl, ho, hg, by simp, rfl, ?_, ?_⟩
      · simp only [List.length_nil, u64] at hw ⊢
        omega
      · simp only [List.map_nil, List.sum_nil, u64] at hy ⊢
        omega
  | cons d rest ih =>
      intro fs b ho hg hw hy
      obtain ⟨b1, hstep, ho1, hg1, hl1, hp1, hwr1, hby1⟩ := write_step fs b d ho hg
      have hw1 : b1.writes < u64 := by
        rw [hwr1]
        exact Nat.mod_lt _ (by norm_num [u64])
      have hy1 : b1.bytes < u64 := by
        rw [hby1]
        exact Nat.mod_lt _ (by norm_num [u64])
      obtain ⟨b2, hall, ho2, hg2, hl2, hp2, hwr2, hby2⟩ := ih fs b1 ho1 hg1 hw1 hy1
      refine ⟨b2, ?_, ho2, hg2, ?_, ?_, ?_, ?_⟩
      · unfold Bucket.writeAll
        rw [hstep]
        exact hall
      · rw [hl2, hl1]
        simp
      · rw [hp2, hp1]
      · rw [hwr2, hwr1]
        simp only [List.length_cons, u64]
        omega
      · rw [hby2, hby1]
        simp only [List.map_cons, List.sum_cons, u64]
        omega

/-- What `Bucket.Close` does to a well-formed bucket: the buffered bytes
are flushed, the bucket is sealed, and the cursor returns to offset 0. -/
theorem close_spec (b : Bucket) (hg : b.good) :
    ∃ c, b.Close = Res.ok c ∧ c.isOpen = false ∧
      c.file = some { content := b.logical, pos := 0 } ∧
      c.writer = some [] ∧ c.path = b.path ∧
      c.writes = b.writes ∧ c.bytes = b.bytes := by
  obtain ⟨f, buf, hf, hb, hpos⟩ := hg
  refine ⟨{ b with isOpen := false
                   file := some { content := f.content ++ buf, pos := 0 }
                   writer := some [] },
    ?_, rfl, ?_, rfl, rfl, rfl, rfl⟩
  · simp [Bucket.Close, Bucket.flushBuf, hf, hb, fileWrite_append f buf hpos]
  · simp [Bucket.logical, hf, hb]

theorem open_fresh (fs : Fs) (path : String) :
    Bucket.Open fs (NewBucket path) =
      Res.ok ({ fs with files := insertPath fs.files path },
        openedFresh path) := by
  simp [Bucket.Open, NewBucket, Bucket.create, openedFresh]

theorem openedFresh_good (path : String) : (openedFresh path).good :=
  ⟨{ content := [], pos := 0 }, [], rfl, rfl, rfl⟩

/-- C1: opening a bucket, writing any sequence of payloads (including the
empty payload and payloads larger than the 4096-byte `bufio` threshold),
closing it and reading it to exhaustion yields exactly the concatenation
of the payloads in write order, with no framing or headers added. -/
theorem c1_round_trip (fs : Fs) (path : String) (ds : List (List Nat)) :
    roundTrip fs path ds = Res.ok ds.flatten := by
  unfold roundTrip
  rw [open_fresh]
  obtain ⟨b2, hall, ho2, hg2, hl2, -, -, -⟩ :=
    writeAll_spec ds { fs with files := insertPath fs.files path }
      (openedFresh path) rfl (openedFresh_good path)
      (by norm_num [openedFresh, u64]) (by norm_num [openedFresh, u64])
  obtain ⟨c, hclose, hco, hcf, -, -, -, -⟩ := close_spec b2 hg2
  simp only [hall, hclose, Bucket.ReadAll, hco, hcf]
  rw [hl2]
  simp [Bucket.logical, openedFresh]

/-! ### Bucket-level claims -/

/-- C2: after `n` successful `Write` calls on an open bucket whose
counters start at zero, `Writes()` is `n` and `Bytes()` is the sum of the
payload lengths (both representable in a uint). -/
theorem c2_counters (fs : Fs) (b : Bucket) (ds : List (List Nat))
    (ho : b.isOpen = true) (hg : b.good) (hw : b.writes = 0) (hy : b.bytes = 0)
    (hn : ds.length < u64) (hs : (ds.map List.length).sum < u64) :
    ∃ fs2 b2, Bucket.writeAll fs b ds = Res.ok (fs2, b2) ∧
      b2.Writes = ds.length ∧ b2.Bytes = (ds.map List.length).sum := by
  obtain ⟨b2, hall, -, -, -, -, hwr, hby⟩ :=
    writeAll_spec ds fs b ho hg (by rw [hw]; norm_num [u64])
      (by rw [hy]; norm_num [u64])
  refine ⟨fs, b2, hall, ?_, ?_⟩
  · rw [Bucket.Writes, hwr, hw, Nat.zero_add, Nat.mod_eq_of_lt hn]
  · rw [Bucket.Bytes, hby, hy, Nat.zero_add, Nat.mod_eq_of_lt hs]

theorem c2_counters_witness :
    ∃ fs2 b2, Bucket.writeAll fsDemo (openedFresh "p") [[1, 2], [3]] =
        Res.ok (fs2, b2) ∧ b2.Writes = 2 ∧ b2.Bytes = 3 :=
  c2_counters fsDemo (openedFresh "p") [[1, 2], [3]] rfl (openedFresh_good "p")
    rfl rfl (by norm_num [u64]) (by norm_num [u64])

/-- A successful `Bucket.Close` always leaves the open flag cleared. -/
theorem close_ok_isOpen (b c : Bucket) (h : b.Close = Res.ok c) :
    c.isOpen = false := by
  unfold Bucket.Close Bucket.flushBuf at h
  rcases hwb : b.writer with _ | buf <;> rcases hfb : b.file with _ | f <;>
    rw [hwb, hfb] at h <;> simp at h
  rw [← h]

/-- C3: `Write` succeeds only while the open flag is set — a never-opened
bucket and a bucket just closed by a successful `Close` both reject
`Write` with the NotOpen error (the Go method returns before touching the
counters, so they are unchanged). -/
theorem c3_write_gate (fs : Fs) (d : List Nat) (path : String) (b c : Bucket)
    (hclose : b.Close = Res.ok c) :
    Bucket.Write fs (NewBucket path) d =
        Res.err "bucket not accepting writes, make sure to open it first" ∧
      Bucket.Write fs c d =
        Res.err "bucket not accepting writes, make sure to open it first" := by
  constructor
  · simp [Bucket.Write, NewBucket]
  · simp [Bucket.Write, close_ok_isOpen b c hclose]

theorem c3_write_gate_witness :
    Bucket.Write fsDemo (NewBucket "q") [7] =
        Res.err "bucket not accepting writes, make sure to open it first" ∧
      Bucket.Write fsDemo closedDemo [7] =
        Res.err "bucket not accepting writes, make sure to open it first" :=
  c3_write_gate fsDemo [7] "q" (openedFresh "p") closedDemo (by decide)

/-- C4 counterexample: `Destroy` on a bucket that was never opened
evaluates `b.file.Name()` on a nil file handle and faults, so it is not
safe in every sequential state. -/
theorem c4_destroy_cex :
    Bucket.Destroy fsDemo (NewBucket "p") = Res.panik := rfl

/-- C4 (amended): `Destroy` is safe on every bucket that has been opened
at least once and whose backing file still exists: it removes the backing
file and resets both counters to 0, leaving everything else unchanged. -/
theorem c4_destroy_amended (fs : Fs) (b : Bucket) (f : FileH)
    (hf : b.file = some f) (hmem : b.path ∈ fs.files)
    (hnd : fs.files.Nodup) :
    Bucket.Destroy fs b =
        Res.ok ({ fs with files := fs.files.erase b.path },
          { b with writes := 0, bytes := 0 }) ∧
      b.path ∉ fs.files.erase b.path := by
  constructor
  · simp [Bucket.Destroy, hf, hmem]
  · intro hc
    exact (hnd.mem_erase_iff.mp hc).1 rfl

theorem c4_destroy_amended_witness :
    (Bucket.Destroy fsP closedDemo =
        Res.ok ({ fsP with files := fsP.files.erase closedDemo.path },
          { closedDemo with writes := 0, bytes := 0 })) ∧
      closedDemo.path ∉ fsP.files.erase closedDemo.path :=
  c4_destroy_amended fsP closedDemo { content := [], pos := 0 } rfl
    (by decide) (by decide)

/-- C9: a successful `Destroy` only zeroes the counters — the open flag,
file handle and writer are untouched, so a bucket that was open before
`Destroy` is still open and a subsequent `Write` is still accepted
(buffering to the removed file's handle). -/
theorem c9_destroy_frame (fs : Fs) (b : Bucket) (d : List Nat)
    (ho : b.isOpen = true) (hfw : b.file.isSome = true)
    (hww : b.writer.isSome = true) (hmem : b.path ∈ fs.files) :
    ∃ fs2 b2, Bucket.Destroy fs b = Res.ok (fs2, b2) ∧ b2.isOpen = true ∧
      b2.file = b.file ∧ b2.writer = b.writer ∧
      b2.writes = 0 ∧ b2.bytes = 0 ∧
      (Bucket.Write fs2 b2 d).isOk = true := by
  obtain ⟨f, hf⟩ := Option.isSome_iff_exists.mp hfw
  obtain ⟨w, hwr⟩ := Option.isSome_iff_exists.mp hww
  refine ⟨{ fs with files := fs.files.erase b.path },
    { b with writes := 0, bytes := 0 }, ?_, ho, rfl, rfl, rfl, rfl, ?_⟩
  · simp [Bucket.Destroy, hf, hmem]
  · simp [Bucket.Write, ho, hf, hwr, Res.isOk]

theorem c9_destroy_frame_witness :
    ∃ fs2 b2, Bucket.Destroy fsP (openedFresh "p") = Res.ok (fs2, b2) ∧
      b2.isOpen = true ∧ b2.file = (openedFresh "p").file ∧
      b2.writer = (openedFresh "p").writer ∧
      b2.writes = 0 ∧ b2.bytes = 0 ∧
      (Bucket.Write fs2 b2 [9]).isOk = true :=
  c9_destroy_frame fsP (openedFresh "p") [9] rfl rfl rfl (by decide)

/-! ### Buffer-level claims -/

theorem mapLookup_append (l : List (String × Nat)) (n : String) (v : Nat)
    (h : mapLookup l n = none) : mapLookup (l ++ [(n, v)]) n = some v := by
  induction l with
  | nil => simp [mapLookup]
  | cons e rest ih =>
      simp only [List.cons_append, mapLookup] at h ⊢
      by_cases he : e.1 = n
      · rw [if_pos he] at h
        cases h
      · rw [if_neg he] at h ⊢
        exact ih h

/-- C5: `Buffer.Get` is an idempotent get-or-create — after a successful
`Get(name)` returning bucket pointer `i`, a second `Get(name)` returns
the very same pointer and leaves the buffer (in particular its allocation
heap) completely unchanged, so at most one instance is ever created per
name. -/
theorem c5_get_idempotent (st st1 : BufferSt) (name : String) (i : Nat)
    (h : st.Get name = Res.ok (st1, i)) :
    st1.Get name = Res.ok (st1, i) := by
  unfold BufferSt.Get at h ⊢
  cases hl : mapLookup st.buckets name with
  | some idx =>
      rw [hl] at h
      simp at h
      obtain ⟨rfl, rfl⟩ := h
      rw [hl]
  | none =>
      rw [hl, open_fresh] at h
      simp at h
      obtain ⟨rfl, rfl⟩ := h
      rw [mapLookup_append st.buckets name st.heap.length hl]

theorem c5_get_idempotent_witness :
    BufferSt.Get stDemo1 "a" = Res.ok (stDemo1, 0) :=
  c5_get_idempotent (NewBufferSt "r" fsDemo) stDemo1 "a" 0 (by decide)

theorem foldl_mod_sum (g : Bucket → Nat) (l : List Bucket) :
    ∀ acc, acc < u64 →
      l.foldl (fun a b => (a + g b) % u64) acc = (acc + (l.map g).sum) % u64 := by
  induction l with
  | nil =>
      intro acc h
      simp [Nat.mod_eq_of_lt h]
  | cons b rest ih =>
      intro acc h
      simp only [List.foldl_cons, List.map_cons, List.sum_cons]
      rw [ih ((acc + g b) % u64) (Nat.mod_lt _ (by norm_num [u64]))]
      simp only [u64]
      omega

/-- C6: in every buffer state (reachable or not), the aggregate
`Buffer.Writes()` / `Buffer.Bytes()` is the sum of the corresponding
per-bucket counters over the currently tracked buckets — it is computed
by summation, not stored. -/
theorem c6_aggregate (st : BufferSt)
    (hw : (st.tracked.map Bucket.Writes).sum < u64)
    (hy : (st.tracked.map Bucket.Bytes).sum < u64) :
    st.Writes = (st.tracked.map Bucket.Writes).sum ∧
      st.Bytes = (st.tracked.map Bucket.Bytes).sum := by
  constructor
  · rw [BufferSt.Writes, foldl_mod_sum Bucket.Writes st.tracked 0
      (by norm_num [u64]), Nat.zero_add, Nat.mod_eq_of_lt hw]
  · rw [BufferSt.Bytes, foldl_mod_sum Bucket.Bytes st.tracked 0
      (by norm_num [u64]), Nat.zero_add, Nat.mod_eq_of_lt hy]

theorem c6_aggregate_witness :
    stDemo1.Writes = (stDemo1.tracked.map Bucket.Writes).sum ∧
      stDemo1.Bytes = (stDemo1.tracked.map Bucket.Bytes).sum :=
  c6_aggregate stDemo1 (by norm_num [stDemo1, BufferSt.tracked, openedFresh,
    Bucket.Writes, u64]) (by norm_num [stDemo1, BufferSt.tracked, openedFresh,
    Bucket.Bytes, u64])

/-- Characterisation of a successful `Bucket.Destroy`: the path was
present and is erased, and only the counters of the bucket change. -/
theorem destroy_ok_cases (fs : Fs) (b : Bucket) (r : Fs × Bucket)
    (h : Bucket.Destroy fs b = Res.ok r) :
    r = ({ fs with files := fs.files.erase b.path },
        { b with writes := 0, bytes := 0 }) ∧ b.path ∈ fs.files := by
  unfold Bucket.Destroy at h
  cases hf : b.file with
  | none =>
      rw [hf] at h
      exact Res.noConfusion h
  | some f =>
      rw [hf] at h
      by_cases hm : b.path ∈ fs.files
      · rw [if_pos hm] at h
        injection h with h
        exact ⟨h.symm, hm⟩
      · rw [if_neg hm] at h
        exact Res.noConfusion h

/-- What a successful `resetLoop` run guarantees: directories untouched,
files only removed, and the backing file of every processed entry gone. -/
theorem resetLoop_spec (entries : List (String × Nat)) :
    ∀ (fs : Fs) (heap : List Bucket) (fs2 : Fs) (heap2 : List Bucket),
      resetLoop fs heap entries = Res.ok (fs2, heap2) → fs.files.Nodup →
      fs2.dirs = fs.dirs ∧ (∀ p ∈ fs2.files, p ∈ fs.files) ∧
      (∀ e ∈ entries, ∀ b, heap[e.2]? = some b → b.path ∉ fs2.files) := by
  induction entries with
  | nil =>
      intro fs heap fs2 heap2 h hnd
      unfold resetLoop at h
      injection h with h
      obtain ⟨rfl, rfl⟩ := Prod.mk.inj h
      exact ⟨rfl, fun p hp => hp, fun e he => absurd he (List.not_mem_nil e)⟩
  | cons e rest ih =>
      intro fs heap fs2 heap2 h hnd
      unfold resetLoop at h
      cases hidx : heap[e.2]? with
      | none =>
          rw [hidx] at h
          exact Res.noConfusion h
      | some b =>
          rw [hidx] at h
          replace h : (match Bucket.Destroy fs b with
              | Res.ok r => resetLoop r.1 (heap.set e.2 r.2) rest
              | Res.err s => Res.err s
              | Res.panik => Res.panik) = Res.ok (fs2, heap2) := h
          cases hd : Bucket.Destroy fs b with
          | err s =>
              rw [hd] at h
              exact Res.noConfusion h
          | panik =>
              rw [hd] at h
              exact Res.noConfusion h
          | ok r =>
              rw [hd] at h
              obtain ⟨hr, hmem⟩ := destroy_ok_cases fs b r hd
              subst hr
              replace h : resetLoop { fs with files := fs.files.erase b.path }
                  (heap.set e.2 { b with writes := 0, bytes := 0 }) rest =
                  Res.ok (fs2, heap2) := h
              have hnd1 : (fs.files.erase b.path).Nodup := hnd.erase _
              obtain ⟨hdirs, hsub, hrem⟩ := ih _ _ _ _ h hnd1
              have hlen : e.2 < heap.length := by
                by_contra hge
                rw [List.getElem?_eq_none (le_of_not_lt hge)] at hidx
                exact Option.noConfusion hidx
              refine ⟨hdirs, ?_, ?_⟩
              · intro p hp
                exact List.mem_of_mem_erase (hsub p hp)
              · intro e2 he2 b2 hb2
                rcases List.mem_cons.mp he2 with rfl | hrest
                · rw [hidx] at hb2
                  injection hb2 with hb2
                  subst hb2
                  intro hc
                  exact hnd.not_mem_erase (hsub _ hc)
                · by_cases hj : e2.2 = e.2
                  · have hset : (heap.set e.2
                        { b with writes := 0, bytes := 0 })[e2.2]? =
                        some { b with writes := 0, bytes := 0 } := by
                      rw [hj]
                      exact List.getElem?_set_eq_of_lt _ hlen
                    have hgone := hrem e2 hrest _ hset
                    rw [hj, hidx] at hb2
                    injection hb2 with hb2
                    subst hb2
                    exact hgone
                  · have hset : (heap.set e.2
                        { b with writes := 0, bytes := 0 })[e2.2]? =
                        heap[e2.2]? := List.getElem?_set_ne (Ne.symm hj)
                    exact hrem e2 hrest b2 (by rw [hset]; exact hb2)

/-- C7: after a successful `Buffer.Reset`, the bucket map is empty
(`Buckets()` returns the empty set and `Size()` is 0), the backing file
of every previously tracked bucket has been removed, and the root
directory still exists. -/
theorem c7_reset (st st2 : BufferSt) (h : st.Reset = Res.ok st2)
    (hnd : st.fs.files.Nodup) (hroot : st.root ∈ st.fs.dirs) :
    st2.Buckets = [] ∧ st2.Size = 0 ∧
      (∀ e ∈ st.buckets, ∀ b, st.heap[e.2]? = some b →
        b.path ∉ st2.fs.files) ∧
      st2.root ∈ st2.fs.dirs := by
  unfold BufferSt.Reset at h
  cases hr : resetLoop st.fs st.heap st.buckets with
  | err s =>
      rw [hr] at h
      exact Res.noConfusion h
  | panik =>
      rw [hr] at h
      exact Res.noConfusion h
  | ok r =>
      rw [hr] at h
      injection h with h
      subst h
      obtain ⟨hdirs, hsub, hrem⟩ :=
        resetLoop_spec st.buckets st.fs st.heap r.1 r.2 hr hnd
      refine ⟨rfl, rfl, ?_, ?_⟩
      · intro e he b hb
        exact hrem e he b hb
      · show st.root ∈ r.1.dirs
        rw [hdirs]
        exact hroot

theorem c7_reset_witness :
    stDemoR2.Buckets = [] ∧ stDemoR2.Size = 0 ∧
      "r/a" ∉ stDemoR2.fs.files ∧ stDemoR2.root ∈ stDemoR2.fs.dirs := by
  obtain h := c7_reset stDemoR stDemoR2 (by decide) (by decide) (by decide)
  exact ⟨h.1, h.2.1, h.2.2.1 ("a", 0) (by decide) (openedFresh "r/a") rfl,
    h.2.2.2⟩

/-- What a successful `closeLoop` run guarantees: untouched indices keep
their buckets, and every index named by an entry holds a sealed bucket. -/
theorem closeLoop_spec (entries : List (String × Nat)) :
    ∀ (heap heap2 : List Bucket), closeLoop heap entries = Res.ok heap2 →
      (∀ j, j ∉ entries.map Prod.snd → heap2[j]? = heap[j]?) ∧
      (∀ j ∈ entries.map Prod.snd, ∀ b2, heap2[j]? = some b2 →
        b2.isOpen = false) := by
  induction entries with
  | nil =>
      intro heap heap2 h
      unfold closeLoop at h
      injection h with h
      subst h
      exact ⟨fun j _ => rfl, fun j hj => absurd hj (List.not_mem_nil j)⟩
  | cons e rest ih =>
      intro heap heap2 h
      unfold closeLoop at h
      cases hidx : heap[e.2]? with
      | none =>
          rw [hidx] at h
          exact Res.noConfusion h
      | some b =>
          rw [hidx] at h
          replace h : (match b.Close with
              | Res.ok b2 => closeLoop (heap.set e.2 b2) rest
              | Res.err s => Res.err s
              | Res.panik => Res.panik) = Res.ok heap2 := h
          cases hcl : b.Close with
          | err s =>
              rw [hcl] at h
              exact Res.noConfusion h
          | panik =>
              rw [hcl] at h
              exact Res.noConfusion h
          | ok c =>
              rw [hcl] at h
              replace h : closeLoop (heap.set e.2 c) rest = Res.ok heap2 := h
              obtain ⟨hpre, hclosed⟩ := ih (heap.set e.2 c) heap2 h
              have hlen : e.2 < heap.length := by
                by_contra hge
                rw [List.getElem?_eq_none (le_of_not_lt hge)] at hidx
                exact Option.noConfusion hidx
              constructor
              · intro j hj
                have hj1 : j ∉ rest.map Prod.snd := fun hc => hj (by simp [hc])
                have hj2 : j ≠ e.2 := fun hc => hj (by simp [hc])
                rw [hpre j hj1, List.getElem?_set_ne (Ne.symm hj2)]
              · intro j hj b2 hb2
                simp only [List.map_cons, List.mem_cons] at hj
                rcases hj with rfl | hjr
                · by_cases hjrest : e.2 ∈ rest.map Prod.snd
                  · exact hclosed e.2 hjrest b2 hb2
                  · rw [hpre e.2 hjrest, List.getElem?_set_eq_of_lt c hlen] at hb2
                    injection hb2 with hb2
                    subst hb2
                    exact close_ok_isOpen b _ hcl
                · exact hclosed j hjr b2 hb2

/-- C8: a successful `Buffer.Close` leaves the tracked-bucket map intact
and every tracked bucket sealed: its open flag is cleared, so `Write` on
any of them is rejected with the NotOpen error. The loop stops at the
first failing bucket by construction (`closeLoop` returns its error). -/
theorem c8_close (st st2 : BufferSt) (h : st.Close = Res.ok st2) :
    st2.buckets = st.buckets ∧
      ∀ e ∈ st.buckets, ∀ b, st2.heap[e.2]? = some b → b.isOpen = false ∧
        ∀ fs d, Bucket.Write fs b d =
          Res.err "bucket not accepting writes, make sure to open it first" := by
  unfold BufferSt.Close at h
  cases hr : closeLoop st.heap st.buckets with
  | err s =>
      rw [hr] at h
      exact Res.noConfusion h
  | panik =>
      rw [hr] at h
      exact Res.noConfusion h
  | ok heap2 =>
      rw [hr] at h
      injection h with h
      subst h
      obtain ⟨-, hclosed⟩ := closeLoop_spec st.buckets st.heap heap2 hr
      refine ⟨rfl, ?_⟩
      intro e he b hb
      have hco := hclosed e.2 (List.mem_map_of_mem Prod.snd he) b hb
      exact ⟨hco, fun fs d => by simp [Bucket.Write, hco]⟩

theorem c8_close_witness :
    stDemo2.buckets = stDemo1.buckets ∧ closedRA.isOpen = false ∧
      Bucket.Write fsDemo closedRA [5] =
        Res.err "bucket not accepting writes, make sure to open it first" := by
  obtain h := c8_close stDemo1 stDemo2 (by decide)
  obtain hb := h.2 ("a", 0) (by decide) closedRA rfl
  exact ⟨h.1, hb.1, hb.2 fsDemo [5]⟩

/-- C10 counterexample: `Get "a"` on a fresh buffer, then `Buffer.Close`,
then `Get "a"` again — the second successful `Get` returns the tracked
bucket with its open flag cleared, so not every successful `Get` returns
an open bucket. -/
theorem c10_get_open_cex :
    BufferSt.Get (NewBufferSt "r" fsDemo) "a" = Res.ok (stDemo1, 0) ∧
      BufferSt.Close stDemo1 = Res.ok stDemo2 ∧
      BufferSt.Get stDemo2 "a" = Res.ok (stDemo2, 0) ∧
      (stDemo2.heap.getD 0 dfltBucket).isOpen = false := by
  decide

theorem insertPath_self (l : List String) (p : String) : p ∈ insertPath l p := by
  unfold insertPath
  split_ifs with h
  · exact h
  · simp

/-- C10 (amended): when `Buffer.Get(name)` creates a new bucket (the name
is not yet tracked), the eager variant opens it before inserting it: the
returned bucket has its open flag set, its backing file exists at the
path joining root and name, and a subsequent `Write` succeeds without the
caller invoking `Open`. A `Get` that finds an existing bucket returns it
in its current state, which may be closed. -/
theorem c10_get_creates_open (st : BufferSt) (name : String)
    (h : mapLookup st.buckets name = none) :
    ∃ st2 b, st.Get name = Res.ok (st2, st.heap.length) ∧
      st2.heap[st.heap.length]? = some b ∧ b.isOpen = true ∧
      b.path = joinPath st.root name ∧ b.path ∈ st2.fs.files ∧
      ∀ fs d, (Bucket.Write fs b d).isOk = true := by
  refine ⟨{ st with
      fs := { st.fs with files := insertPath st.fs.files (joinPath st.root name) }
      heap := st.heap ++ [openedFresh (joinPath st.root name)]
      buckets := st.buckets ++ [(name, st.heap.length)] },
    openedFresh (joinPath st.root name), ?_, ?_, rfl, rfl, ?_, ?_⟩
  · unfold BufferSt.Get
    rw [h, open_fresh]
  · exact List.getElem?_concat_length st.heap _
  · exact insertPath_self st.fs.files _
  · intro fs d
    simp [Bucket.Write, openedFresh, Res.isOk]

theorem c10_get_creates_open_witness :
    ∃ st2 b, (NewBufferSt "r" fsDemo).Get "a" =
        Res.ok (st2, (NewBufferSt "r" fsDemo).heap.length) ∧
      st2.heap[(NewBufferSt "r" fsDemo).heap.length]? = some b ∧
      b.isOpen = true ∧ b.path = joinPath "r" "a" ∧
      b.path ∈ st2.fs.files ∧
      ∀ fs d, (Bucket.Write fs b d).isOk = true :=
  c10_get_creates_open (NewBufferSt "r" fsDemo) "a" rfl

end GoDataBuffer
